import Mathlib

/-!
Shallow embedding of the TimeCapsule repository's core logic
(`src/utils/capsules.ts`, `src/utils/export.ts`, `src/utils/storage.ts`,
the validation module, and `public/embed-script.js`) together with
theorems settling the frozen claims about it.

Modelling conventions:
* JavaScript numbers are modelled as `Int` (all claim-relevant numeric code
  paths use integral values: years, timestamps, counts, pixel heights).
* JavaScript `undefined`/absent optional fields are modelled as `Option`.
* External platform/library functions (`JSON.stringify`/`JSON.parse`,
  LZ-String compression, `new URL`, `Date` parsing, `fetch`) are not code of
  this repository; they are passed to the embedded functions as explicit
  function parameters, and theorems that depend on their documented
  contracts take those contracts as hypotheses.
* `Array.prototype.sort` with comparator `(a, b) => a.year - b.year` is a
  stable ascending sort by `year` (stability is guaranteed by ECMAScript);
  it is modelled by `List.insertionSort` with the relation
  `a.year ≤ b.year`, which is the stable ascending sort by year on lists.
-/

/-- Model of `mediaType` tag from `src/types/index.ts`. -/
inductive MediaType where
  | image
  | video
  | link
deriving DecidableEq, Repr

/-- Model of `Mood` from `src/types/index.ts`. -/
inductive Mood where
  | joyful
  | reflective
  | challenging
  | transformative
  | peaceful
  | adventurous
deriving DecidableEq, Repr

/-- Model of `CapsuleType` from `src/types/index.ts`: `'past' | 'future'`. -/
inductive CapsuleType where
  | past
  | future
deriving DecidableEq, Repr

/-- Model of `Capsule` from `src/types/index.ts`. Optional fields are `Option`s. -/
structure Capsule where
  id : String
  year : Int
  title : String
  description : Option String := none
  mediaUrl : Option String := none
  mediaType : Option MediaType := none
  mood : Option Mood := none
  milestone : Option Bool := none
  type : CapsuleType
  createdAt : Int
  updatedAt : Int
  colorSeed : Option Int := none
  tags : Option (List String) := none
  age : Option Int := none
deriving DecidableEq, Repr

/-- Model of `ShareMetadata` from `src/types/index.ts`. -/
structure ShareMetadata where
  name : Option String := none
  profilePic : Option String := none
  bio : Option String := none
  sharedAt : Option String := none
deriving DecidableEq, Repr

/-- Model of `ShareData` from `src/types/index.ts`: `{capsules, metadata?}`. -/
structure ShareData where
  capsules : List Capsule
  metadata : Option ShareMetadata := none
deriving DecidableEq, Repr

/-- Ascending-by-year ordering used by `sortCapsules`
(`src/utils/capsules.ts`: comparator `(a, b) => a.year - b.year`). -/
def leYear (a b : Capsule) : Prop := a.year ≤ b.year

instance : DecidableRel leYear := fun a b => inferInstanceAs (Decidable (a.year ≤ b.year))

instance : IsTotal Capsule leYear := ⟨fun a b => Int.le_total a.year b.year⟩

instance : IsTrans Capsule leYear := ⟨fun _ _ _ h1 h2 => Int.le_trans h1 h2⟩

/-- Model of `sortCapsules` from `src/utils/capsules.ts`:
`[...capsules].sort((a, b) => a.year - b.year)`, a stable ascending sort
by `year`, modelled by insertion sort with `leYear`. -/
def sortCapsules (capsules : List Capsule) : List Capsule :=
  List.insertionSort leYear capsules

/-- Model of `getCapsuleType` from `src/utils/capsules.ts`:
`year > currentYear ? 'future' : 'past'`. The ambient
`new Date().getFullYear()` is the explicit `currentYear` parameter. -/
def getCapsuleType (currentYear : Int) (year : Int) : CapsuleType :=
  if year > currentYear then CapsuleType.future else CapsuleType.past

/-- Model of `capsule.mediaUrl?.startsWith('data:')` from `src/utils/export.ts`
(the optional-chaining call: `undefined` media URLs are not data URLs). -/
def isDataUrl (mediaUrl : Option String) : Bool :=
  match mediaUrl with
  | none => false
  | some s => "data:".toList.isPrefixOf s.toList

/-- The per-capsule shareable-mode mapping shared by `exportAsJSON`
(`shareableMode` branch) and `generateShareableURL` in
`src/utils/export.ts`: a capsule whose `mediaUrl` is a `data:` URL has its
`mediaUrl` and `mediaType` replaced by `undefined`. -/
def stripCapsule (c : Capsule) : Capsule :=
  if isDataUrl c.mediaUrl then { c with mediaUrl := none, mediaType := none } else c

/-- The `ShareData` payload built by `exportAsJSON` in `src/utils/export.ts`
(the function's file-download side effect serializes exactly this value). -/
def exportAsJSONData (capsules : List Capsule) (shareableMode : Bool)
    (metadata : Option ShareMetadata) : ShareData :=
  { capsules := if shareableMode then capsules.map stripCapsule else capsules,
    metadata := metadata }

/-- The `ShareData` payload built by `generateShareableURL` in
`src/utils/export.ts`: shareable-mode capsules, and metadata (when given)
with `sharedAt` refreshed to `new Date().toISOString()` (the `nowIso`
parameter). -/
def generateShareableURLPayload (nowIso : String) (capsules : List Capsule)
    (metadata : Option ShareMetadata) : ShareData :=
  { capsules := capsules.map stripCapsule,
    metadata := metadata.map (fun m => { m with sharedAt := some nowIso }) }

/-- Return shape of `generateShareableURL`:
`{ url, needsExternalUrl, estimatedSize }`. -/
structure ShareURLResult where
  url : String
  needsExternalUrl : Bool
  estimatedSize : Nat
deriving DecidableEq, Repr

/-- Model of `generateShareableURL` from `src/utils/export.ts`. `stringify` models
`JSON.stringify` and `compress` models
`LZString.compressToEncodedURIComponent` (external libraries, passed in);
`baseUrl` models the configured share base URL. `estimatedSize` is
`new Blob([jsonString]).size`, the UTF-8 byte length. -/
def generateShareableURL (stringify : ShareData → String) (compress : String → String)
    (baseUrl : String) (nowIso : String) (capsules : List Capsule)
    (metadata : Option ShareMetadata) : ShareURLResult :=
  if (baseUrl ++ "?data="
      ++ compress (stringify (generateShareableURLPayload nowIso capsules metadata))).length
      > 1900 then
    { url := "", needsExternalUrl := true,
      estimatedSize :=
        (stringify (generateShareableURLPayload nowIso capsules metadata)).utf8ByteSize }
  else
    { url := baseUrl ++ "?data="
        ++ compress (stringify (generateShareableURLPayload nowIso capsules metadata)),
      needsExternalUrl := false,
      estimatedSize :=
        (stringify (generateShareableURLPayload nowIso capsules metadata)).utf8ByteSize }

/-- The `data` query parameter carried by a URL produced by
`generateShareableURL`: the LZ-compressed JSON of the shareable payload. -/
def shareDataParam (stringify : ShareData → String) (compress : String → String)
    (nowIso : String) (capsules : List Capsule)
    (metadata : Option ShareMetadata) : String :=
  compress (stringify (generateShareableURLPayload nowIso capsules metadata))

/-- Result of `JSON.parse` on an import payload, as far as the import code
inspects it: `Array.isArray(parsed)` distinguishes a legacy bare capsule
array from a `ShareData` object (`src/utils/export.ts`). -/
inductive ParsedJSON where
  | arr (capsules : List Capsule)
  | obj (data : ShareData)
deriving DecidableEq, Repr

/-- The capsule list carried by a parsed import payload. -/
def parsedCapsules (parsed : ParsedJSON) : List Capsule :=
  match parsed with
  | ParsedJSON.arr capsules => capsules
  | ParsedJSON.obj d => d.capsules

/-- The `ShareData` resolved by `importJSONFile` in `src/utils/export.ts`
once the file has been read and `JSON.parse` has succeeded: a bare array is
coerced to `{capsules: parsed}`, an object is returned as-is. No sorting is
applied on this path. -/
def importJSONFileData (parsed : ParsedJSON) : ShareData :=
  match parsed with
  | ParsedJSON.arr capsules => { capsules := capsules }
  | ParsedJSON.obj d => d

/-- The `ShareData` returned by `importFromURL` in `src/utils/export.ts`
once the fetch and `JSON.parse` have succeeded; identical coercion to
`importJSONFileData`, and likewise no sorting. -/
def importFromURLData (parsed : ParsedJSON) : ShareData :=
  match parsed with
  | ParsedJSON.arr capsules => { capsules := capsules }
  | ParsedJSON.obj d => d

/-- Model of `importFromURLParameterData` from `src/utils/export.ts`. `decompress`
models `LZString.decompressFromEncodedURIComponent` (`none` for a `null`
result) and `parse` models `JSON.parse` (`none` when it throws). The falsy
checks `if (!dataParam)` and `if (!jsonString)` reject empty strings; the
capsule list of the result is sorted with `sortCapsules`. -/
def importFromURLParameterData (decompress : String → Option String)
    (parse : String → Option ParsedJSON) (dataParam : String) : Option ShareData :=
  if dataParam = "" then none
  else
    match decompress dataParam with
    | none => none
    | some jsonString =>
      if jsonString = "" then none
      else
        match parse jsonString with
        | none => none
        | some (ParsedJSON.arr capsules) => some { capsules := sortCapsules capsules }
        | some (ParsedJSON.obj d) => some { d with capsules := sortCapsules d.capsules }

/-- Model of `importFromURLParameterUrl` from `src/utils/export.ts`, applied to the
successfully fetched and parsed external JSON; the capsule list is sorted
with `sortCapsules` (fetch/parse failures throw and are handled by the
caller). -/
def importFromURLParameterUrl (parsed : ParsedJSON) : ShareData :=
  match parsed with
  | ParsedJSON.arr capsules => { capsules := sortCapsules capsules }
  | ParsedJSON.obj d => { d with capsules := sortCapsules d.capsules }

/-- Model of `importFromURLParameterLegacy` from `src/utils/export.ts`. `decode`
models `atob(decodeURIComponent(importData))` (`none` when it throws),
`parse` models `JSON.parse`. Metadata is dropped and the capsule list is
sorted with `sortCapsules`. -/
def importFromURLParameterLegacy (decode : String → Option String)
    (parse : String → Option ParsedJSON) (importData : String) : Option ShareData :=
  if importData = "" then none
  else
    match decode importData with
    | none => none
    | some jsonString =>
      match parse jsonString with
      | none => none
      | some parsed =>
        some { capsules := sortCapsules (parsedCapsules parsed) }

/-- Model of `importFromURLParameter` from `src/utils/export.ts`: fixed-priority
dispatch over the `data`, `url` (with optional `meta`) and legacy `import`
query parameters. `fetch` models a successful fetch-and-parse of the
external JSON (`none` when `importFromURLParameterUrl` throws, which the
outer catch turns into `null`), and `metaParse` models `JSON.parse` of the
decompressed `meta` parameter. -/
def importFromURLParameter (decompress : String → Option String)
    (parse : String → Option ParsedJSON) (fetch : String → Option ParsedJSON)
    (decode : String → Option String) (metaParse : String → Option ShareMetadata)
    (dataParam urlParam metaParam importParam : Option String) : Option ShareData :=
  match dataParam with
  | some d => importFromURLParameterData decompress parse d
  | none =>
    match urlParam with
    | some u =>
      match fetch u with
      | none => none
      | some parsed =>
        match metaParam with
        | some m =>
          match decompress m with
          | none => some (importFromURLParameterUrl parsed)
          | some metaString =>
            if metaString = "" then some (importFromURLParameterUrl parsed)
            else
              match metaParse metaString with
              | none => some (importFromURLParameterUrl parsed)
              | some metadata =>
                some { importFromURLParameterUrl parsed with metadata := some metadata }
        | none => some (importFromURLParameterUrl parsed)
    | none =>
      match importParam with
      | some i => importFromURLParameterLegacy decode parse i
      | none => none

/-- Untrusted JavaScript value as inspected by the validation module: the
shapes produced by `JSON.parse`, plus `undef` for `undefined`-valued
properties of in-memory objects (e.g. the optional fields that
`validateAndSanitizeCapsule` explicitly assigns `undefined`). Numbers are
modelled as `Int`. -/
inductive JsVal where
  | undef
  | null
  | bool (b : Bool)
  | num (n : Int)
  | str (s : String)
  | arr (elems : List JsVal)
  | obj (fields : List (String × JsVal))

/-- JavaScript truthiness for the modelled values. -/
def jsTruthy (v : JsVal) : Bool :=
  match v with
  | JsVal.undef => false
  | JsVal.null => false
  | JsVal.bool b => b
  | JsVal.num n => decide (n ≠ 0)
  | JsVal.str s => decide (s ≠ "")
  | JsVal.arr _ => true
  | JsVal.obj _ => true

/-- Property lookup on an object's field list (last occurrence wins, as for
duplicate keys in JavaScript object literals and `JSON.parse`). -/
def jsGet (fields : List (String × JsVal)) (key : String) : Option JsVal :=
  fields.foldl (fun acc kv => if kv.fst == key then some kv.snd else acc) none

/-- Property access `v.key`: defined on objects, `undefined` (here `none`)
elsewhere; the validation code only reaches non-object accesses inside
`try` blocks where a thrown access is equivalent to an absent value. -/
def jsField (v : JsVal) (key : String) : Option JsVal :=
  match v with
  | JsVal.obj fields => jsGet fields key
  | _ => none

/-- Model of `str.trim()`: strip leading and trailing whitespace (modelled on the
character list). -/
def jsTrimChars (l : List Char) : List Char :=
  ((l.dropWhile Char.isWhitespace).reverse.dropWhile Char.isWhitespace).reverse

/-- Model of `sanitizeString` from the validation module: non-strings map to `''`,
strings are trimmed and capped at 10,000 characters
(`str.trim().slice(0, 10000)`). -/
def sanitizeString (v : JsVal) : String :=
  match v with
  | JsVal.str s => String.mk ((jsTrimChars s.data).take 10000)
  | _ => ""

/-- Model of `sanitizeURL` from the validation module. `urlOk` models
"`new URL(url)` succeeds and its protocol is `http:` or `https:`" (the
platform URL parser, passed in); `data:` URLs are accepted as-is, anything
else is dropped. -/
def sanitizeURL (urlOk : String → Bool) (v : JsVal) : Option String :=
  match v with
  | JsVal.str url =>
    if "data:".toList.isPrefixOf url.toList then some url
    else if urlOk url then some url else none
  | _ => none

/-- Model of `validateMediaType` from the validation module: whitelist
`image`/`video`/`link`, else `undefined`. -/
def validateMediaType (v : JsVal) : Option MediaType :=
  match v with
  | JsVal.str "image" => some MediaType.image
  | JsVal.str "video" => some MediaType.video
  | JsVal.str "link" => some MediaType.link
  | _ => none

/-- Model of `validateMood` from the validation module: whitelist the six moods,
else `undefined`. -/
def validateMood (v : JsVal) : Option Mood :=
  match v with
  | JsVal.str "joyful" => some Mood.joyful
  | JsVal.str "reflective" => some Mood.reflective
  | JsVal.str "challenging" => some Mood.challenging
  | JsVal.str "transformative" => some Mood.transformative
  | JsVal.str "peaceful" => some Mood.peaceful
  | JsVal.str "adventurous" => some Mood.adventurous
  | _ => none

/-- Whether a JavaScript value is a string. -/
def isStr (v : JsVal) : Bool :=
  match v with
  | JsVal.str _ => true
  | _ => false

/-- Property access with JavaScript's `undefined` default
(`capsule.key` on the field list of an object). -/
def jsGetD (fields : List (String × JsVal)) (key : String) : JsVal :=
  (jsGet fields key).getD JsVal.undef

/-- Field list of an object value (property access on a non-object is only
reached inside `try` blocks, where it throws or yields `undefined`; both
outcomes are equivalent to the empty field list for the validation code). -/
def jsFieldsOf (v : JsVal) : List (String × JsVal) :=
  match v with
  | JsVal.obj fields => fields
  | _ => []

/-- The required-field gate at the top of `validateAndSanitizeCapsule`:
`id` a string, `year` a number, `title` a string, `type` exactly `'past'`
or `'future'`; on a non-object the property accesses throw or yield
`undefined`, and the capsule is invalid either way. -/
def requiredFieldsOk (v : JsVal) : Bool :=
  match v with
  | JsVal.obj fields =>
    (match jsGetD fields "id" with | JsVal.str _ => true | _ => false)
    && (match jsGetD fields "year" with | JsVal.num _ => true | _ => false)
    && (match jsGetD fields "title" with | JsVal.str _ => true | _ => false)
    && (match jsGetD fields "type" with
        | JsVal.str t => t == "past" || t == "future"
        | _ => false)
  | _ => false

/-- Model of `validateAndSanitizeCapsule` from the validation module: the
required-field guard returns invalid, otherwise the sanitized capsule is
constructed field by field. `now` models `Date.now()`; `urlOk` as in
`sanitizeURL`. `Math.floor` on the already-integral `year`/`age` model is
the identity. -/
def validateAndSanitizeCapsule (now : Int) (urlOk : String → Bool)
    (v : JsVal) : Option Capsule :=
  if requiredFieldsOk v then
    some
      { id := sanitizeString (jsGetD (jsFieldsOf v) "id"),
        year :=
          match jsGetD (jsFieldsOf v) "year" with
          | JsVal.num n => n
          | _ => 0,
        title := sanitizeString (jsGetD (jsFieldsOf v) "title"),
        type :=
          match jsGetD (jsFieldsOf v) "type" with
          | JsVal.str t => if t == "past" then CapsuleType.past else CapsuleType.future
          | _ => CapsuleType.past,
        createdAt :=
          match jsGetD (jsFieldsOf v) "createdAt" with
          | JsVal.num n => n
          | _ => now,
        updatedAt :=
          match jsGetD (jsFieldsOf v) "updatedAt" with
          | JsVal.num n => n
          | _ => now,
        description :=
          if jsTruthy (jsGetD (jsFieldsOf v) "description") then
            some (sanitizeString (jsGetD (jsFieldsOf v) "description"))
          else none,
        mediaUrl :=
          match jsGetD (jsFieldsOf v) "mediaUrl" with
          | JsVal.str u => if u ≠ "" then sanitizeURL urlOk (JsVal.str u) else none
          | _ => none,
        mediaType := validateMediaType (jsGetD (jsFieldsOf v) "mediaType"),
        mood := validateMood (jsGetD (jsFieldsOf v) "mood"),
        milestone :=
          match jsGetD (jsFieldsOf v) "milestone" with
          | JsVal.bool b => some b
          | _ => none,
        colorSeed :=
          match jsGetD (jsFieldsOf v) "colorSeed" with
          | JsVal.num n => some n
          | _ => none,
        tags :=
          match jsGetD (jsFieldsOf v) "tags" with
          | JsVal.arr ts => some ((ts.filter isStr).map sanitizeString)
          | _ => none,
        age :=
          match jsGetD (jsFieldsOf v) "age" with
          | JsVal.num n => some n
          | _ => none }
  else none

/-- Model of `validateAndSanitizeMetadata` from the validation module. `dateOk`
models "`new Date(s).getTime()` is not `NaN`" (platform date parsing,
passed in). A key is assigned (and counted by `Object.keys`) exactly when
its guard holds; the whole result is `undefined` when no key was
assigned. -/
def validateAndSanitizeMetadata (dateOk : String → Bool) (urlOk : String → Bool)
    (v : JsVal) : Option ShareMetadata :=
  let nameSet :=
    match jsField v "name" with
    | some (JsVal.str s) => decide (s ≠ "")
    | _ => false
  let bioSet :=
    match jsField v "bio" with
    | some (JsVal.str s) => decide (s ≠ "")
    | _ => false
  let picSet :=
    match jsField v "profilePic" with
    | some (JsVal.str s) => decide (s ≠ "")
    | _ => false
  let sharedSet :=
    match jsField v "sharedAt" with
    | some (JsVal.str s) => decide (s ≠ "") && dateOk s
    | _ => false
  if nameSet || bioSet || picSet || sharedSet then
    some
      { name := if nameSet then (jsField v "name").map sanitizeString else none,
        bio := if bioSet then (jsField v "bio").map sanitizeString else none,
        profilePic :=
          if picSet then
            match jsField v "profilePic" with
            | some u => sanitizeURL urlOk u
            | none => none
          else none,
        sharedAt :=
          if sharedSet then
            match jsField v "sharedAt" with
            | some (JsVal.str s) => some s
            | _ => none
          else none }
  else none

/-- Return shape of `validateImportedJSON`. `capsules`/`metadata` model the
optional `data` payload; `warnings` is `none` when the code returns
`undefined` for it. -/
structure ValidationResult where
  valid : Bool
  error : Option String := none
  capsules : Option (List Capsule) := none
  metadata : Option ShareMetadata := none
  warnings : Option (List String) := none
deriving DecidableEq, Repr

/-- Whether a JavaScript value fails the `typeof parsed !== 'object' ||
parsed === null` gate of `validateImportedJSON`. -/
def isPrimitiveJs (v : JsVal) : Bool :=
  match v with
  | JsVal.str _ => true
  | JsVal.num _ => true
  | JsVal.bool _ => true
  | JsVal.null => true
  | JsVal.undef => true
  | _ => false

/-- The legacy-format coercion of `validateImportedJSON`: a bare array
becomes `{capsules: [...]}`. -/
def coerceLegacy (v : JsVal) : JsVal :=
  match v with
  | JsVal.arr xs => JsVal.obj [("capsules", JsVal.arr xs)]
  | p => p

/-- The skipped-capsules warning string built by `validateImportedJSON`. -/
def warningMsg (k : Nat) : String :=
  toString k ++ " capsule" ++ (if k > 1 then "s were" else " was")
    ++ " skipped due to invalid data."

/-- Model of `validateImportedJSON` from the validation module: structure checks,
legacy coercion, per-capsule validation with a drop count, optional
metadata sanitization, and the skipped-capsules warning. -/
def validateImportedJSON (now : Int) (dateOk : String → Bool)
    (urlOk : String → Bool) (parsed0 : JsVal) : ValidationResult :=
  if isPrimitiveJs parsed0 then
    { valid := false, error := some "Invalid file format. Expected a JSON object." }
  else
    match jsField (coerceLegacy parsed0) "capsules" with
    | some (JsVal.arr capsList) =>
      if capsList.isEmpty then
        { valid := false, error := some "This file contains no capsules to import." }
      else
        if (capsList.filterMap (validateAndSanitizeCapsule now urlOk)).isEmpty then
          { valid := false,
            error := some "All capsules in this file are invalid or corrupted." }
        else
          { valid := true,
            capsules := some (capsList.filterMap (validateAndSanitizeCapsule now urlOk)),
            metadata :=
              match jsField (coerceLegacy parsed0) "metadata" with
              | some (JsVal.obj fs) =>
                validateAndSanitizeMetadata dateOk urlOk (JsVal.obj fs)
              | some (JsVal.arr xs) =>
                validateAndSanitizeMetadata dateOk urlOk (JsVal.arr xs)
              | _ => none,
            warnings :=
              if (capsList.countP fun c => (validateAndSanitizeCapsule now urlOk c).isNone)
                  > 0 then
                some [warningMsg
                  (capsList.countP fun c => (validateAndSanitizeCapsule now urlOk c).isNone)]
              else none }
    | _ =>
      { valid := false,
        error := some "This file doesn't appear to be a TimeCapsule export. Missing capsules data." }

/-- Encoding of a `CapsuleType` back into the JavaScript string it came
from. -/
def typeToJsVal (t : CapsuleType) : JsVal :=
  match t with
  | CapsuleType.past => JsVal.str "past"
  | CapsuleType.future => JsVal.str "future"

/-- Encoding of a `MediaType` back into its JavaScript string. -/
def mediaTypeToJsVal (m : Option MediaType) : JsVal :=
  match m with
  | none => JsVal.undef
  | some MediaType.image => JsVal.str "image"
  | some MediaType.video => JsVal.str "video"
  | some MediaType.link => JsVal.str "link"

/-- Encoding of a `Mood` back into its JavaScript string. -/
def moodToJsVal (m : Option Mood) : JsVal :=
  match m with
  | none => JsVal.undef
  | some Mood.joyful => JsVal.str "joyful"
  | some Mood.reflective => JsVal.str "reflective"
  | some Mood.challenging => JsVal.str "challenging"
  | some Mood.transformative => JsVal.str "transformative"
  | some Mood.peaceful => JsVal.str "peaceful"
  | some Mood.adventurous => JsVal.str "adventurous"

/-- Optional string field of an in-memory capsule object. -/
def optStrToJsVal (s : Option String) : JsVal :=
  match s with
  | none => JsVal.undef
  | some s => JsVal.str s

/-- Optional numeric field of an in-memory capsule object. -/
def optNumToJsVal (n : Option Int) : JsVal :=
  match n with
  | none => JsVal.undef
  | some n => JsVal.num n

/-- Optional boolean field of an in-memory capsule object. -/
def optBoolToJsVal (b : Option Bool) : JsVal :=
  match b with
  | none => JsVal.undef
  | some b => JsVal.bool b

/-- Optional tags field of an in-memory capsule object. -/
def optTagsToJsVal (ts : Option (List String)) : JsVal :=
  match ts with
  | none => JsVal.undef
  | some ts => JsVal.arr (ts.map JsVal.str)

/-- The in-memory JavaScript object corresponding to a `Capsule` value, with
the key layout that `validateAndSanitizeCapsule` itself constructs (every
key present; absent optional data is an `undefined`-valued key). This is
the value seen when a previously validated capsule is re-validated. -/
def capsuleToJsVal (c : Capsule) : JsVal :=
  JsVal.obj
    [("id", JsVal.str c.id),
     ("year", JsVal.num c.year),
     ("title", JsVal.str c.title),
     ("type", typeToJsVal c.type),
     ("createdAt", JsVal.num c.createdAt),
     ("updatedAt", JsVal.num c.updatedAt),
     ("description", optStrToJsVal c.description),
     ("mediaUrl", optStrToJsVal c.mediaUrl),
     ("mediaType", mediaTypeToJsVal c.mediaType),
     ("mood", moodToJsVal c.mood),
     ("milestone", optBoolToJsVal c.milestone),
     ("colorSeed", optNumToJsVal c.colorSeed),
     ("tags", optTagsToJsVal c.tags),
     ("age", optNumToJsVal c.age)]

/-- The in-memory JavaScript object corresponding to a `ShareMetadata`. -/
def metadataToJsVal (m : ShareMetadata) : JsVal :=
  JsVal.obj
    [("name", optStrToJsVal m.name),
     ("profilePic", optStrToJsVal m.profilePic),
     ("bio", optStrToJsVal m.bio),
     ("sharedAt", optStrToJsVal m.sharedAt)]

/-- The in-memory JavaScript object corresponding to a `ShareData` payload,
as handed back to `validateImportedJSON` when an already-validated payload
is re-validated. -/
def shareDataToJsVal (d : ShareData) : JsVal :=
  JsVal.obj
    [("capsules", JsVal.arr (d.capsules.map capsuleToJsVal)),
     ("metadata",
       match d.metadata with
       | none => JsVal.undef
       | some m => metadataToJsVal m)]

/-- Re-validation stability of a single validated capsule: its string
fields are fixed points of `sanitizeString`, its description (if any) is
non-empty, and its media URL (if any) is non-empty and accepted unchanged
by `sanitizeURL`. Every first-run output satisfies this except when a
string field was truncated at the 10,000-character cap leaving trailing
whitespace, or a truthy-but-blank description was sanitized to `''`. -/
def capsuleRevalidationStable (urlOk : String → Bool) (c : Capsule) : Bool :=
  (sanitizeString (JsVal.str c.id) == c.id)
  && (sanitizeString (JsVal.str c.title) == c.title)
  && (match c.description with
      | none => true
      | some s => decide (s ≠ "") && (sanitizeString (JsVal.str s) == s))
  && (match c.mediaUrl with
      | none => true
      | some u => decide (u ≠ "") && (sanitizeURL urlOk (JsVal.str u) == some u))
  && (match c.tags with
      | none => true
      | some ts => ts.all (fun t => sanitizeString (JsVal.str t) == t))

/-- Persisted timeline record from `src/utils/storage.ts`
(`TimelineData & TimelineMetadata`): the IndexedDB value keyed by `id`. -/
structure TimelineRecord where
  id : String
  name : String
  capsules : List Capsule
  version : Int
  createdAt : Int
  updatedAt : Int
  capsuleCount : Nat
  lastCapsuleDate : Option String := none
deriving DecidableEq, Repr

/-- Model of `store.get(timelineId)` on the `timelines` object store: first record
with the given key (the store is keyed by `id`). -/
def storeGet (s : List TimelineRecord) (timelineId : String) : Option TimelineRecord :=
  s.find? (fun r => r.id == timelineId)

/-- Model of `store.put(record)` on the `timelines` object store: replace the record
with the same key, or append. -/
def storePut (s : List TimelineRecord) (r : TimelineRecord) : List TimelineRecord :=
  match s with
  | [] => [r]
  | x :: xs => if x.id == r.id then r :: xs else x :: storePut xs r

/-- Model of `storage.loadTimeline` from `src/utils/storage.ts`: returns the record
or `null`; a schema-version mismatch is only logged. -/
def loadTimeline (s : List TimelineRecord) (timelineId : String) : Option TimelineRecord :=
  storeGet s timelineId

/-- Model of `storage.loadCapsules` from `src/utils/storage.ts`:
`timeline?.capsules || []`. -/
def loadCapsules (s : List TimelineRecord) (timelineId : String) : List Capsule :=
  match loadTimeline s timelineId with
  | some t => t.capsules
  | none => []

/-- Model of `storage.saveCapsules` from `src/utils/storage.ts`. `now` models
`Date.now()`. The record is built with `createdAt: now`, then
`createdAt` is overwritten by `existing.createdAt || now` when a record
with the same id already exists (note the falsy `||`: a stored `createdAt`
of `0` is replaced by `now`); `name` is `timelineName || timelineId`
(again falsy: an empty-string name falls back to the id); `version` is the
`VERSION` constant `1`. `saveCapsulesRecord` is the record the call writes,
and `saveCapsules` is the store after the `put`. -/
def saveCapsulesRecord (now : Int) (s : List TimelineRecord) (capsules : List Capsule)
    (timelineId : String) (timelineName : Option String) : TimelineRecord :=
  { id := timelineId,
    name :=
      match timelineName with
      | some n => if n = "" then timelineId else n
      | none => timelineId,
    capsules := capsules,
    version := 1,
    createdAt :=
      match loadTimeline s timelineId with
      | some existing => if existing.createdAt == 0 then now else existing.createdAt
      | none => now,
    updatedAt := now,
    capsuleCount := capsules.length }

def saveCapsules (now : Int) (s : List TimelineRecord) (capsules : List Capsule)
    (timelineId : String) (timelineName : Option String) : List TimelineRecord :=
  storePut s (saveCapsulesRecord now s capsules timelineId timelineName)

/-- The configured site origin of `public/embed-script.js`
(`const url = "https://timecapsule.srirams.me"`). -/
def siteUrl : String := "https://timecapsule.srirams.me"

/-- Model of `isTrustedOrigin` from `public/embed-script.js`. `parseOrigin` models
`origin => new URL(origin).origin` (the platform URL parser; `none` when
the constructor throws, in which case the `catch` returns `false`). -/
def isTrustedOrigin (parseOrigin : String → Option String) (origin : String) : Bool :=
  match parseOrigin origin, parseOrigin siteUrl with
  | some a, some b => a == b
  | _, _ => false

/-- Height state that the parent embed script keeps per iframe: the applied
CSS height and the `lastHeight` recorded in the `WeakMap`; `source`
identifies the iframe's `contentWindow`. -/
structure IframeState where
  source : Nat
  height : Int
  lastHeight : Int
deriving DecidableEq, Repr

/-- A received `message` event: origin, posting window, and data. -/
structure MessageEvent where
  origin : String
  source : Nat
  data : JsVal

/-- Model of `Math.max(MIN_HEIGHT, Math.min(MAX_HEIGHT, Math.ceil(height)))` from
`public/embed-script.js` (heights are integral in the model, so `ceil` is
the identity). -/
def clampHeight (h : Int) : Int := max 200 (min 10000 h)

/-- The resize applied to one iframe for a trusted
`timecapsule-resize` message: the clamped height is applied when it
differs from `lastHeight` by more than 10 pixels (the deferred
`requestAnimationFrame` write is collapsed into its final effect). -/
def applyResize (h : Int) (ifr : IframeState) : IframeState :=
  let newHeight := clampHeight h
  if (newHeight - ifr.lastHeight).natAbs > 10 then
    { ifr with height := newHeight, lastHeight := newHeight }
  else ifr

/-- The `message` listener installed by `initTimeCapsuleEmbeds` in
`public/embed-script.js`, as a transition on the iframe height states: an
untrusted origin returns immediately; a trusted `timecapsule-resize`
message with a numeric height resizes the iframe whose `contentWindow` is
the event source; every other message leaves heights unchanged (the
`timecapsule-request-theme` branch only posts a message back). -/
def onMessage (parseOrigin : String → Option String) (ev : MessageEvent)
    (st : List IframeState) : List IframeState :=
  if isTrustedOrigin parseOrigin ev.origin then
    match jsField ev.data "type", jsField ev.data "height" with
    | some (JsVal.str "timecapsule-resize"), some (JsVal.num h) =>
      st.map (fun ifr => if ifr.source == ev.source then applyResize h ifr else ifr)
    | _, _ => st
  else st

/-- Fixture: a capsule with the given id and year and no optional data. -/
def mkCapsule (id : String) (year : Int) : Capsule :=
  { id := id, year := year, title := "t", type := CapsuleType.past,
    createdAt := 0, updatedAt := 0 }

/-- Fixture capsule for year 2020. -/
def cap2020 : Capsule := mkCapsule "a" 2020

/-- Fixture capsule for year 1999. -/
def cap1999 : Capsule := mkCapsule "b" 1999

/-- Fixture capsule for year 2021. -/
def cap2021 : Capsule := mkCapsule "c" 2021

/-- Fixture: a capsule whose media is an embedded `data:` URL. -/
def capData : Capsule :=
  { mkCapsule "d" 2000 with
      mediaUrl := some "data:image/png;base64,AAAA",
      mediaType := some MediaType.image }

/-- Fixture: a stored record with the falsy `createdAt` value `0`. -/
def legacyRecord : TimelineRecord :=
  { id := "t", name := "t", capsules := [], version := 1,
    createdAt := 0, updatedAt := 0, capsuleCount := 0 }

/-- Fixture: a stored record with a genuine creation timestamp. -/
def existingRecord : TimelineRecord :=
  { id := "t", name := "n", capsules := [], version := 1,
    createdAt := 3, updatedAt := 1, capsuleCount := 0 }

/-- Fixture: a 2000-character compressed payload, longer than any base URL
allows within the 1900-character budget. -/
def bigCompressed : String := String.mk (List.replicate 2000 'x')

/-- Fixture: a JSON capsule entry with all required fields. -/
def goodCapJson (i : String) : JsVal :=
  JsVal.obj [("id", JsVal.str i), ("year", JsVal.num 2000),
             ("title", JsVal.str "t"), ("type", JsVal.str "past")]

/-- Fixture: a JSON capsule entry missing the required `title`. -/
def badCapJson (i : String) : JsVal :=
  JsVal.obj [("id", JsVal.str i), ("year", JsVal.num 2000), ("type", JsVal.str "past")]

/-- Fixture: five JSON capsule entries, two of them missing `title`. -/
def fiveCapsList : List JsVal :=
  [goodCapJson "1", badCapJson "2", goodCapJson "3", badCapJson "4", goodCapJson "5"]

/-- Fixture: an import payload carrying `fiveCapsList`. -/
def fiveCapsJson : JsVal := JsVal.obj [("capsules", JsVal.arr fiveCapsList)]

/-- Fixture: an import payload with one capsule whose `description` is a
single space (truthy, but sanitized to the empty string). -/
def c6Json : JsVal :=
  JsVal.obj [("capsules", JsVal.arr [JsVal.obj
    [("id", JsVal.str "a"), ("year", JsVal.num 2000), ("title", JsVal.str "t"),
     ("type", JsVal.str "past"), ("description", JsVal.str " ")]])]

/-- Fixture: the capsule produced by validating `c6Json` at time 0 — its
`description` is the (truthy-input, falsy-output) empty string. -/
def c6Capsule : Capsule :=
  { id := "a", year := 2000, title := "t", type := CapsuleType.past,
    createdAt := 0, updatedAt := 0, description := some "" }

/-- A sorted list produced by `sortCapsules` is non-decreasing by year. -/
theorem sortCapsules_chain (capsules : List Capsule) :
    List.Chain' leYear (sortCapsules capsules) :=
  (List.sorted_insertionSort leYear capsules).chain'

/-- Sorting with `sortCapsules` permutes the input. -/
theorem sortCapsules_perm (capsules : List Capsule) :
    List.Perm (sortCapsules capsules) capsules :=
  List.perm_insertionSort leYear capsules

/-- C10: for every year, `getCapsuleType year` is `'future'` exactly when
`year` is strictly greater than the current year; a capsule whose year
equals the current year is classified `'past'`. -/
theorem getCapsuleType_future_iff (currentYear year : Int) :
    (getCapsuleType currentYear year = CapsuleType.future ↔ year > currentYear)
    ∧ getCapsuleType currentYear currentYear = CapsuleType.past := by
  constructor
  · unfold getCapsuleType
    split
    · simp_all
    · simp_all
  · simp [getCapsuleType]

/-- C1: generating a shareable URL from a capsule list (JSON-serialize the
shareable-mode payload, LZ-compress, append as the `data` parameter) and
then importing the resulting `data` parameter (decompress, parse, sort)
yields the capsule list sorted ascending by year, with `data:`-media
capsules stripped of `mediaUrl`/`mediaType`. The hypotheses are the
documented round-trip contracts of the external JSON and LZ-String
libraries at the payload in question, plus the 1900-character budget under
which a URL is produced at all. -/
theorem C1_share_url_roundTrip
    (stringify : ShareData → String) (parse : String → Option ParsedJSON)
    (compress : String → String) (decompress : String → Option String)
    (baseUrl nowIso : String) (capsules : List Capsule)
    (metadata : Option ShareMetadata)
    (hjson : stringify (generateShareableURLPayload nowIso capsules metadata) ≠ "")
    (hcomp : shareDataParam stringify compress nowIso capsules metadata ≠ "")
    (hdec : decompress (shareDataParam stringify compress nowIso capsules metadata)
      = some (stringify (generateShareableURLPayload nowIso capsules metadata)))
    (hparse : parse (stringify (generateShareableURLPayload nowIso capsules metadata))
      = some (ParsedJSON.obj (generateShareableURLPayload nowIso capsules metadata)))
    (hlen : (baseUrl ++ "?data="
        ++ shareDataParam stringify compress nowIso capsules metadata).length ≤ 1900) :
    (generateShareableURL stringify compress baseUrl nowIso capsules metadata).url
      = baseUrl ++ "?data=" ++ shareDataParam stringify compress nowIso capsules metadata
    ∧ importFromURLParameterData decompress parse
        (shareDataParam stringify compress nowIso capsules metadata)
      = some { capsules := sortCapsules (capsules.map stripCapsule),
               metadata := metadata.map (fun m => { m with sharedAt := some nowIso }) } := by
  unfold shareDataParam at hcomp hdec hlen ⊢
  constructor
  · unfold generateShareableURL
    rw [if_neg (Nat.not_lt.mpr hlen)]
  · unfold importFromURLParameterData
    rw [if_neg hcomp, hdec]
    simp only [if_neg hjson, hparse]
    simp [generateShareableURLPayload]

/-- C1 witness: concrete instantiation with trivial library functions and a
two-capsule list. -/
theorem C1_share_url_roundTrip_witness :
    (generateShareableURL (fun _ => "J") (fun _ => "D") "https://x" "now"
        [cap2020, cap1999] none).url
      = "https://x" ++ "?data="
        ++ shareDataParam (fun _ => "J") (fun _ => "D") "now" [cap2020, cap1999] none
    ∧ importFromURLParameterData (fun _ => some "J")
        (fun _ => some (ParsedJSON.obj
          (generateShareableURLPayload "now" [cap2020, cap1999] none)))
        (shareDataParam (fun _ => "J") (fun _ => "D") "now" [cap2020, cap1999] none)
      = some { capsules := sortCapsules ([cap2020, cap1999].map stripCapsule),
               metadata := Option.map
                 (fun (m : ShareMetadata) => { m with sharedAt := some "now" }) none } :=
  C1_share_url_roundTrip (fun _ => "J")
    (fun _ => some (ParsedJSON.obj (generateShareableURLPayload "now" [cap2020, cap1999] none)))
    (fun _ => "D") (fun _ => some "J") "https://x" "now" [cap2020, cap1999] none
    (by decide) (by decide) rfl rfl (by decide)

/-- C4: a generated share URL (base URL, `?data=`, compressed payload)
longer than 1900 characters makes `generateShareableURL` return
`needsExternalUrl: true` with an empty url; a URL of at most 1900
characters is returned in full with `needsExternalUrl: false`. -/
theorem C4_url_length_boundary
    (stringify : ShareData → String) (compress : String → String)
    (baseUrl nowIso : String) (capsules : List Capsule)
    (metadata : Option ShareMetadata) :
    ((baseUrl ++ "?data="
        ++ shareDataParam stringify compress nowIso capsules metadata).length > 1900 →
      (generateShareableURL stringify compress baseUrl nowIso capsules metadata).needsExternalUrl
          = true
      ∧ (generateShareableURL stringify compress baseUrl nowIso capsules metadata).url = "")
    ∧ ((baseUrl ++ "?data="
        ++ shareDataParam stringify compress nowIso capsules metadata).length ≤ 1900 →
      (generateShareableURL stringify compress baseUrl nowIso capsules metadata).needsExternalUrl
          = false
      ∧ (generateShareableURL stringify compress baseUrl nowIso capsules metadata).url
          = baseUrl ++ "?data="
            ++ shareDataParam stringify compress nowIso capsules metadata) := by
  constructor
  · intro hlen
    unfold shareDataParam at hlen
    unfold generateShareableURL
    rw [if_pos hlen]
    exact ⟨rfl, rfl⟩
  · intro hlen
    unfold shareDataParam at hlen
    unfold generateShareableURL
    rw [if_neg (Nat.not_lt.mpr hlen)]
    exact ⟨rfl, rfl⟩

/-- C4 witness: a 2000-character compressed payload triggers the external
fallback; a short one is returned in full. -/
theorem C4_url_length_boundary_witness :
    ((generateShareableURL (fun _ => "") (fun _ => bigCompressed)
        "https://x" "" [] none).needsExternalUrl = true
      ∧ (generateShareableURL (fun _ => "") (fun _ => bigCompressed)
        "https://x" "" [] none).url = "")
    ∧ ((generateShareableURL (fun _ => "") (fun _ => "D")
        "https://x" "" [] none).needsExternalUrl = false
      ∧ (generateShareableURL (fun _ => "") (fun _ => "D")
        "https://x" "" [] none).url
          = "https://x" ++ "?data=" ++ shareDataParam (fun _ => "") (fun _ => "D") "" [] none) :=
  ⟨(C4_url_length_boundary (fun _ => "") (fun _ => bigCompressed) "https://x" "" [] none).1
      (by
        show ("https://x" ++ "?data=" ++ bigCompressed).length > 1900
        rw [String.length_append, String.length_append]
        have hb : bigCompressed.length = 2000 := by
          unfold bigCompressed
          rw [String.mk_length, List.length_replicate]
        rw [hb]
        decide),
   (C4_url_length_boundary (fun _ => "") (fun _ => "D") "https://x" "" [] none).2
      (by decide)⟩

/-- C3: in shareable mode (`exportAsJSON` with `shareableMode = true`, and
`generateShareableURL`), a capsule whose `mediaUrl` starts with `data:`
appears in the payload with `mediaUrl` and `mediaType` undefined, while a
capsule whose `mediaUrl` does not start with `data:` is kept entirely
unchanged. -/
theorem C3_shareable_export_strips_dataUrls
    (capsules : List Capsule) (metadata : Option ShareMetadata)
    (nowIso : String) (i : Nat) (h : i < capsules.length) :
    (exportAsJSONData capsules true metadata).capsules[i]?
        = some (stripCapsule (capsules.get ⟨i, h⟩))
    ∧ (generateShareableURLPayload nowIso capsules metadata).capsules[i]?
        = some (stripCapsule (capsules.get ⟨i, h⟩))
    ∧ (isDataUrl (capsules.get ⟨i, h⟩).mediaUrl = true →
        (stripCapsule (capsules.get ⟨i, h⟩)).mediaUrl = none
        ∧ (stripCapsule (capsules.get ⟨i, h⟩)).mediaType = none)
    ∧ (isDataUrl (capsules.get ⟨i, h⟩).mediaUrl = false →
        stripCapsule (capsules.get ⟨i, h⟩) = capsules.get ⟨i, h⟩) := by
  refine ⟨?_, ?_, ?_, ?_⟩
  · simp [exportAsJSONData, List.getElem?_eq_getElem, h]
  · simp [generateShareableURLPayload, List.getElem?_eq_getElem, h]
  · intro hd
    unfold stripCapsule
    rw [hd]
    exact ⟨rfl, rfl⟩
  · intro hd
    unfold stripCapsule
    rw [hd]
    simp

/-- C3 witness: a capsule with an embedded `data:` image is stripped. -/
theorem C3_shareable_export_strips_dataUrls_witness :
    0 < [capData].length
    ∧ ((exportAsJSONData [capData] true none).capsules[0]? = some (stripCapsule capData)
      ∧ (generateShareableURLPayload "n" [capData] none).capsules[0]?
          = some (stripCapsule capData)
      ∧ (isDataUrl capData.mediaUrl = true →
          (stripCapsule capData).mediaUrl = none ∧ (stripCapsule capData).mediaType = none)
      ∧ (isDataUrl capData.mediaUrl = false → stripCapsule capData = capData)) :=
  ⟨by decide, C3_shareable_export_strips_dataUrls [capData] none "n" 0 (by decide)⟩

/-- C2 (amended): the URL-parameter import paths (`data`, `url`, legacy
`import`, and the `importFromURLParameter` dispatcher over them) return
capsule lists sorted non-decreasing by year; the file-import path
(`importJSONFile`) and the direct-fetch path (`importFromURL`) apply no
sorting and return the parsed capsule list in its original order. -/
theorem C2_import_sorting :
    (∀ (decompress : String → Option String) (parse : String → Option ParsedJSON)
        (dataParam : String) (d : ShareData),
      importFromURLParameterData decompress parse dataParam = some d →
      List.Chain' leYear d.capsules)
    ∧ (∀ parsed : ParsedJSON,
        List.Chain' leYear (importFromURLParameterUrl parsed).capsules)
    ∧ (∀ (decode : String → Option String) (parse : String → Option ParsedJSON)
        (importData : String) (d : ShareData),
      importFromURLParameterLegacy decode parse importData = some d →
      List.Chain' leYear d.capsules)
    ∧ (∀ (decompress : String → Option String) (parse fetch : String → Option ParsedJSON)
        (decode : String → Option String) (metaParse : String → Option ShareMetadata)
        (dataParam urlParam metaParam importParam : Option String) (d : ShareData),
      importFromURLParameter decompress parse fetch decode metaParse
          dataParam urlParam metaParam importParam = some d →
      List.Chain' leYear d.capsules)
    ∧ (∀ parsed : ParsedJSON, (importJSONFileData parsed).capsules = parsedCapsules parsed)
    ∧ (∀ parsed : ParsedJSON, (importFromURLData parsed).capsules = parsedCapsules parsed) := by
  have hdata : ∀ (decompress : String → Option String) (parse : String → Option ParsedJSON)
      (dataParam : String) (d : ShareData),
      importFromURLParameterData decompress parse dataParam = some d →
      List.Chain' leYear d.capsules := by
    intro decompress parse dataParam d h
    unfold importFromURLParameterData at h
    split at h
    · exact absurd h (by simp)
    · split at h
      · exact absurd h (by simp)
      · rename_i jsonString _
        split at h
        · exact absurd h (by simp)
        · split at h
          · exact absurd h (by simp)
          · rename_i capsules _
            cases h
            exact sortCapsules_chain capsules
          · rename_i dd _
            cases h
            exact sortCapsules_chain dd.capsules
  have hurl : ∀ parsed : ParsedJSON,
      List.Chain' leYear (importFromURLParameterUrl parsed).capsules := by
    intro parsed
    cases parsed with
    | arr capsules => exact sortCapsules_chain capsules
    | obj d => exact sortCapsules_chain d.capsules
  have hlegacy : ∀ (decode : String → Option String) (parse : String → Option ParsedJSON)
      (importData : String) (d : ShareData),
      importFromURLParameterLegacy decode parse importData = some d →
      List.Chain' leYear d.capsules := by
    intro decode parse importData d h
    unfold importFromURLParameterLegacy at h
    split at h
    · exact absurd h (by simp)
    · split at h
      · exact absurd h (by simp)
      · split at h
        · exact absurd h (by simp)
        · rename_i parsed _
          cases h
          exact sortCapsules_chain (parsedCapsules parsed)
  refine ⟨hdata, hurl, hlegacy, ?_, fun parsed => by cases parsed <;> rfl,
    fun parsed => by cases parsed <;> rfl⟩
  intro decompress parse fetch decode metaParse dataParam urlParam metaParam importParam d h
  cases dataParam with
  | some dp =>
    simp only [importFromURLParameter] at h
    exact hdata _ _ _ _ h
  | none =>
    cases urlParam with
    | some u =>
      cases hf : fetch u with
      | none =>
        simp only [importFromURLParameter, hf] at h
        exact absurd h (by simp)
      | some parsed =>
        cases metaParam with
        | none =>
          simp only [importFromURLParameter, hf, Option.some.injEq] at h
          rw [← h]
          exact hurl parsed
        | some m =>
          cases hdc : decompress m with
          | none =>
            simp only [importFromURLParameter, hf, hdc, Option.some.injEq] at h
            rw [← h]
            exact hurl parsed
          | some metaString =>
            by_cases hms : metaString = ""
            · simp only [importFromURLParameter, hf, hdc, if_pos hms,
                Option.some.injEq] at h
              rw [← h]
              exact hurl parsed
            · cases hmp : metaParse metaString with
              | none =>
                simp only [importFromURLParameter, hf, hdc, if_neg hms, hmp,
                  Option.some.injEq] at h
                rw [← h]
                exact hurl parsed
              | some metadata =>
                simp only [importFromURLParameter, hf, hdc, if_neg hms, hmp,
                  Option.some.injEq] at h
                rw [← h]
                exact hurl parsed
    | none =>
      cases importParam with
      | some i =>
        simp only [importFromURLParameter] at h
        exact hlegacy _ _ _ _ h
      | none =>
        simp only [importFromURLParameter] at h
        exact absurd h (by simp)

/-- C2 counterexample: a file import (`importJSONFile`) of a bare array
with years 2020, 1999 returns a capsule list that is not sorted
non-decreasing by year. -/
theorem C2_import_sorting_counterexample :
    ¬ List.Chain' leYear (importJSONFileData (ParsedJSON.arr [cap2020, cap1999])).capsules := by
  show ¬ List.Chain' leYear [cap2020, cap1999]
  rw [List.chain'_cons]
  intro hch
  exact absurd hch.1 (by decide)

/-- C2 witness: the `data`-parameter path applied to a payload parsed as
the unsorted array [2020, 1999] returns the sorted list [1999, 2020]. -/
theorem C2_import_sorting_witness :
    List.Chain' leYear
      (({ capsules := [cap1999, cap2020] } : ShareData).capsules) :=
  C2_import_sorting.1 (fun _ => some "J")
    (fun _ => some (ParsedJSON.arr [cap2020, cap1999])) "D"
    { capsules := [cap1999, cap2020] } (by decide)

/-- Looking up the key just written by `storePut` yields the new record. -/
theorem storeGet_storePut_self (s : List TimelineRecord) (r : TimelineRecord) :
    storeGet (storePut s r) r.id = some r := by
  induction s with
  | nil => simp [storePut, storeGet, List.find?]
  | cons x xs ih =>
    by_cases hx : x.id == r.id
    · simp [storePut, storeGet, hx, List.find?]
    · simp only [storePut, hx]
      rw [Bool.not_eq_true] at hx
      simpa [storeGet, List.find?, hx] using ih

/-- C7 (amended): saving timeline `"abc123"` with three capsules in year
order 2020, 1999, 2021 and loading it back returns the capsules in
exactly the order they were saved — the storage layer neither sorts on
save nor on load. -/
theorem C7_load_returns_saved_order :
    loadCapsules (saveCapsules 5 [] [cap2020, cap1999, cap2021] "abc123" none) "abc123"
      = [cap2020, cap1999, cap2021] := by
  decide

/-- C7 counterexample: the loaded list is not the year-sorted list
[1999, 2020, 2021] the claim expects. -/
theorem C7_load_returns_saved_order_counterexample :
    loadCapsules (saveCapsules 5 [] [cap2020, cap1999, cap2021] "abc123" none) "abc123"
      ≠ [cap1999, cap2020, cap2021] := by
  decide

/-- C8 (amended): `saveCapsules` upserts a record whose `updatedAt` is the
call time and whose `capsuleCount` is the length of the given list; when a
record with the same id already exists, its `createdAt` is kept provided
it is nonzero, while a falsy stored `createdAt` of `0` (like a missing
record) is replaced by the call time (`existing.createdAt || now`). -/
theorem C8_saveCapsules_upsert (now : Int) (s : List TimelineRecord)
    (capsules : List Capsule) (timelineId : String) (timelineName : Option String) :
    ∃ r, loadTimeline (saveCapsules now s capsules timelineId timelineName) timelineId
        = some r
      ∧ r.updatedAt = now
      ∧ r.capsuleCount = capsules.length
      ∧ (∀ ex, loadTimeline s timelineId = some ex → ex.createdAt ≠ 0 →
          r.createdAt = ex.createdAt)
      ∧ (∀ ex, loadTimeline s timelineId = some ex → ex.createdAt = 0 → r.createdAt = now)
      ∧ (loadTimeline s timelineId = none → r.createdAt = now) := by
  refine ⟨saveCapsulesRecord now s capsules timelineId timelineName, ?_, rfl, rfl, ?_, ?_, ?_⟩
  · unfold saveCapsules loadTimeline
    exact storeGet_storePut_self s _
  · intro ex hex h0
    unfold saveCapsulesRecord
    simp [hex, h0]
  · intro ex hex h0
    unfold saveCapsulesRecord
    simp [hex, h0]
  · intro hnone
    unfold saveCapsulesRecord
    simp [hnone]

/-- C8 witness: saving over an existing record with `createdAt = 3` at
time 9 keeps `createdAt = 3`, sets `updatedAt = 9` and the new capsule
count. -/
theorem C8_saveCapsules_upsert_witness :
    ∃ r, loadTimeline (saveCapsules 9 [existingRecord] [cap2020] "t" none) "t" = some r
      ∧ r.updatedAt = 9 ∧ r.capsuleCount = 1 ∧ r.createdAt = 3 := by
  obtain ⟨r, h1, h2, h3, h4, -, -⟩ :=
    C8_saveCapsules_upsert 9 [existingRecord] [cap2020] "t" none
  exact ⟨r, h1, h2, h3, h4 existingRecord (by decide) (by decide)⟩

/-- C8 counterexample: a stored record whose `createdAt` is the falsy
value `0` does not keep its creation timestamp — `existing.createdAt ||
now` replaces it with the call time `7`. -/
theorem C8_saveCapsules_upsert_counterexample :
    (loadTimeline [legacyRecord] "t").map TimelineRecord.createdAt = some 0
    ∧ (loadTimeline (saveCapsules 7 [legacyRecord] [] "t" none) "t").map
        TimelineRecord.createdAt = some 7 := by
  decide

/-- C9: the parent embed script never resizes any iframe for a message
whose origin is not the configured site origin — the handler leaves the
entire iframe height state unchanged. -/
theorem C9_untrusted_origin_no_resize (parseOrigin : String → Option String)
    (ev : MessageEvent) (st : List IframeState)
    (h : isTrustedOrigin parseOrigin ev.origin = false) :
    onMessage parseOrigin ev st = st := by
  unfold onMessage
  rw [h]
  simp

/-- C9 witness: a `timecapsule-resize` message with height 550 from
`https://evil.example` leaves a 400-pixel iframe untouched. -/
theorem C9_untrusted_origin_no_resize_witness :
    isTrustedOrigin (fun s => some s) "https://evil.example" = false
    ∧ onMessage (fun s => some s)
        { origin := "https://evil.example", source := 0,
          data := JsVal.obj [("type", JsVal.str "timecapsule-resize"),
                             ("height", JsVal.num 550)] }
        [{ source := 0, height := 400, lastHeight := 400 }]
      = [{ source := 0, height := 400, lastHeight := 400 }] :=
  ⟨by decide, C9_untrusted_origin_no_resize (fun s => some s) _ _ (by decide)⟩

/-- A capsule survives `validateAndSanitizeCapsule` exactly when it passes
the required-field gate. -/
theorem validateAndSanitizeCapsule_isSome (now : Int) (urlOk : String → Bool) (v : JsVal) :
    (validateAndSanitizeCapsule now urlOk v).isSome = requiredFieldsOk v := by
  unfold validateAndSanitizeCapsule
  by_cases h : requiredFieldsOk v = true
  · simp [h]
  · rw [Bool.not_eq_true] at h
    simp [h]

/-- On a non-primitive input whose (coerced) `capsules` field is a
nonempty array with at least one surviving capsule, `validateImportedJSON`
accepts and returns the surviving sanitized capsules. -/
theorem validateImportedJSON_success (now : Int) (dateOk urlOk : String → Bool)
    (parsed : JsVal) (xs : List JsVal)
    (hp : isPrimitiveJs parsed = false)
    (hcf : jsField (coerceLegacy parsed) "capsules" = some (JsVal.arr xs))
    (hxs : xs ≠ [])
    (hv : xs.filterMap (validateAndSanitizeCapsule now urlOk) ≠ []) :
    (validateImportedJSON now dateOk urlOk parsed).valid = true
    ∧ (validateImportedJSON now dateOk urlOk parsed).capsules
        = some (xs.filterMap (validateAndSanitizeCapsule now urlOk))
    ∧ (validateImportedJSON now dateOk urlOk parsed).warnings
        = (if (xs.countP fun c => (validateAndSanitizeCapsule now urlOk c).isNone) > 0 then
            some [warningMsg (xs.countP fun c => (validateAndSanitizeCapsule now urlOk c).isNone)]
          else none) := by
  have he : xs.isEmpty = false := by
    cases xs with
    | nil => exact absurd rfl hxs
    | cons a l => rfl
  have hve : (xs.filterMap (validateAndSanitizeCapsule now urlOk)).isEmpty = false := by
    cases hfe : xs.filterMap (validateAndSanitizeCapsule now urlOk) with
    | nil => exact absurd hfe hv
    | cons a l => rfl
  unfold validateImportedJSON
  rw [if_neg (by simp [hp]), hcf]
  simp [he, hve]

/-- On a non-primitive input whose (coerced) `capsules` field is a
nonempty array in which no capsule survives, `validateImportedJSON`
rejects. -/
theorem validateImportedJSON_allInvalid (now : Int) (dateOk urlOk : String → Bool)
    (parsed : JsVal) (xs : List JsVal)
    (hp : isPrimitiveJs parsed = false)
    (hcf : jsField (coerceLegacy parsed) "capsules" = some (JsVal.arr xs))
    (hxs : xs ≠ [])
    (hv : xs.filterMap (validateAndSanitizeCapsule now urlOk) = []) :
    (validateImportedJSON now dateOk urlOk parsed).valid = false := by
  have he : xs.isEmpty = false := by
    cases xs with
    | nil => exact absurd rfl hxs
    | cons a l => rfl
  unfold validateImportedJSON
  rw [if_neg (by simp [hp]), hcf]
  simp [he, hv]

/-- A capsule that fails the required-field gate is dropped. -/
theorem validateAndSanitizeCapsule_eq_none (now : Int) (urlOk : String → Bool)
    (c : JsVal) (hrc : requiredFieldsOk c = false) :
    validateAndSanitizeCapsule now urlOk c = none := by
  have h2 := validateAndSanitizeCapsule_isSome now urlOk c
  rw [hrc] at h2
  cases hfc : validateAndSanitizeCapsule now urlOk c with
  | none => rfl
  | some c2 =>
    rw [hfc] at h2
    exact absurd h2 (by simp)

/-- C5: `validateImportedJSON` rejects exactly when the input is not an
object, or the (legacy-coerced) `capsules` field is missing or not an
array, or the array is empty, or no capsule passes the required-field
check; otherwise it returns the surviving sanitized capsules, with a
warning stating the number of dropped capsules when that number is
positive and no warnings otherwise. -/
theorem C5_validateImportedJSON_spec (now : Int) (dateOk urlOk : String → Bool)
    (parsed : JsVal) :
    ((validateImportedJSON now dateOk urlOk parsed).valid = false ↔
      (isPrimitiveJs parsed = true
        ∨ (∀ xs, jsField (coerceLegacy parsed) "capsules" ≠ some (JsVal.arr xs))
        ∨ jsField (coerceLegacy parsed) "capsules" = some (JsVal.arr [])
        ∨ (∃ xs, jsField (coerceLegacy parsed) "capsules" = some (JsVal.arr xs) ∧ xs ≠ []
            ∧ ∀ c ∈ xs, requiredFieldsOk c = false)))
    ∧ (∀ xs, isPrimitiveJs parsed = false →
        jsField (coerceLegacy parsed) "capsules" = some (JsVal.arr xs) →
        (validateImportedJSON now dateOk urlOk parsed).valid = true →
        (validateImportedJSON now dateOk urlOk parsed).capsules
            = some (xs.filterMap (validateAndSanitizeCapsule now urlOk))
        ∧ ((xs.countP fun c => !requiredFieldsOk c) > 0 →
            (validateImportedJSON now dateOk urlOk parsed).warnings
              = some [warningMsg (xs.countP fun c => !requiredFieldsOk c)])
        ∧ ((xs.countP fun c => !requiredFieldsOk c) = 0 →
            (validateImportedJSON now dateOk urlOk parsed).warnings = none))
    ∧ (∀ c, (validateAndSanitizeCapsule now urlOk c).isSome = requiredFieldsOk c) := by
  have hpt : ∀ c, (validateAndSanitizeCapsule now urlOk c).isNone = !requiredFieldsOk c := by
    intro c
    rw [← validateAndSanitizeCapsule_isSome now urlOk c]
    cases validateAndSanitizeCapsule now urlOk c <;> rfl
  have hcnt : ∀ xs : List JsVal,
      (xs.countP fun c => (validateAndSanitizeCapsule now urlOk c).isNone)
        = xs.countP fun c => !requiredFieldsOk c := by
    intro xs
    refine List.countP_congr fun a _ => ?_
    rw [hpt a]
  refine ⟨?_, ?_, validateAndSanitizeCapsule_isSome now urlOk⟩
  · by_cases hp : isPrimitiveJs parsed = true
    · unfold validateImportedJSON
      rw [if_pos hp]
      exact iff_of_true rfl (Or.inl hp)
    · rw [Bool.not_eq_true] at hp
      cases hcf : jsField (coerceLegacy parsed) "capsules" with
      | none =>
        unfold validateImportedJSON
        rw [if_neg (by simp [hp]), hcf]
        refine iff_of_true rfl (Or.inr (Or.inl ?_))
        intro xs hxs
        simp at hxs
      | some v =>
        cases v with
        | undef =>
          unfold validateImportedJSON
          rw [if_neg (by simp [hp]), hcf]
          refine iff_of_true rfl (Or.inr (Or.inl ?_))
          intro xs hxs
          simp at hxs
        | null =>
          unfold validateImportedJSON
          rw [if_neg (by simp [hp]), hcf]
          refine iff_of_true rfl (Or.inr (Or.inl ?_))
          intro xs hxs
          simp at hxs
        | bool b =>
          unfold validateImportedJSON
          rw [if_neg (by simp [hp]), hcf]
          refine iff_of_true rfl (Or.inr (Or.inl ?_))
          intro xs hxs
          simp at hxs
        | num n =>
          unfold validateImportedJSON
          rw [if_neg (by simp [hp]), hcf]
          refine iff_of_true rfl (Or.inr (Or.inl ?_))
          intro xs hxs
          simp at hxs
        | str s =>
          unfold validateImportedJSON
          rw [if_neg (by simp [hp]), hcf]
          refine iff_of_true rfl (Or.inr (Or.inl ?_))
          intro xs hxs
          simp at hxs
        | obj fields =>
          unfold validateImportedJSON
          rw [if_neg (by simp [hp]), hcf]
          refine iff_of_true rfl (Or.inr (Or.inl ?_))
          intro xs hxs
          simp at hxs
        | arr xs =>
          cases xs with
          | nil =>
            unfold validateImportedJSON
            rw [if_neg (by simp [hp]), hcf]
            exact iff_of_true rfl (Or.inr (Or.inr (Or.inl rfl)))
          | cons c0 rest =>
            by_cases hv : (c0 :: rest).filterMap (validateAndSanitizeCapsule now urlOk) = []
            · have hval := validateImportedJSON_allInvalid now dateOk urlOk parsed
                (c0 :: rest) hp hcf (by simp) hv
              refine iff_of_true hval
                (Or.inr (Or.inr (Or.inr ⟨c0 :: rest, rfl, by simp, ?_⟩)))
              intro c hc
              have hn := List.filterMap_eq_nil_iff.mp hv c hc
              have h2 := validateAndSanitizeCapsule_isSome now urlOk c
              rw [hn] at h2
              exact h2.symm
            · have hval := (validateImportedJSON_success now dateOk urlOk parsed
                (c0 :: rest) hp hcf (by simp) hv).1
              refine iff_of_false (by rw [hval]; simp) ?_
              rintro (h1 | h2 | h3 | ⟨xs2, hxs2, hne2, hall⟩)
              · rw [hp] at h1
                exact absurd h1 (by simp)
              · exact h2 (c0 :: rest) rfl
              · simp at h3
              · simp only [Option.some.injEq, JsVal.arr.injEq] at hxs2
                subst hxs2
                exact hv (List.filterMap_eq_nil_iff.mpr
                  (fun a ha => validateAndSanitizeCapsule_eq_none now urlOk a (hall a ha)))
  · intro xs hp hcf hvalid
    cases xs with
    | nil =>
      exfalso
      unfold validateImportedJSON at hvalid
      rw [if_neg (by simp [hp]), hcf] at hvalid
      simp at hvalid
    | cons c0 rest =>
      by_cases hv : (c0 :: rest).filterMap (validateAndSanitizeCapsule now urlOk) = []
      · exfalso
        have hvf := validateImportedJSON_allInvalid now dateOk urlOk parsed
          (c0 :: rest) hp hcf (by simp) hv
        rw [hvalid] at hvf
        exact absurd hvf (by simp)
      · obtain ⟨-, hcaps, hwarn⟩ := validateImportedJSON_success now dateOk urlOk parsed
          (c0 :: rest) hp hcf (by simp) hv
        refine ⟨hcaps, ?_, ?_⟩
        · intro hgt
          rw [hwarn, hcnt (c0 :: rest), if_pos hgt]
        · intro heq
          rw [hwarn, hcnt (c0 :: rest), if_neg (by omega)]

/-- C5 witness: of five capsule entries of which two are missing `title`,
the three survivors are imported with a warning mentioning "2". -/
theorem C5_validateImportedJSON_spec_witness :
    (validateImportedJSON 0 (fun _ => false) (fun _ => false) fiveCapsJson).capsules
        = some (fiveCapsList.filterMap (validateAndSanitizeCapsule 0 (fun _ => false)))
    ∧ (validateImportedJSON 0 (fun _ => false) (fun _ => false) fiveCapsJson).warnings
        = some [warningMsg 2] := by
  obtain ⟨hcaps, hwarn, -⟩ :=
    (C5_validateImportedJSON_spec 0 (fun _ => false) (fun _ => false) fiveCapsJson).2.1
      fiveCapsList rfl rfl (by decide)
  exact ⟨hcaps, hwarn (by decide)⟩

/-- A value encoding an in-memory `Capsule` always passes the
required-field gate. -/
theorem revalidate_requiredOk (c : Capsule) :
    requiredFieldsOk (capsuleToJsVal c) = true := by
  cases c with
  | mk id year title desc mu mt mo mil ty ca ua cs tg ag => cases ty <;> rfl

/-- Re-validating an in-memory capsule succeeds and re-sanitizes the
string, description, media-URL and tags fields while fixing all other
fields. -/
theorem revalidate_eq (now : Int) (urlOk : String → Bool) (c : Capsule) :
    validateAndSanitizeCapsule now urlOk (capsuleToJsVal c) =
      some
        { id := sanitizeString (JsVal.str c.id),
          year := c.year,
          title := sanitizeString (JsVal.str c.title),
          type := c.type,
          createdAt := c.createdAt,
          updatedAt := c.updatedAt,
          description :=
            if jsTruthy (optStrToJsVal c.description) then
              some (sanitizeString (optStrToJsVal c.description))
            else none,
          mediaUrl :=
            match c.mediaUrl with
            | some u => if u ≠ "" then sanitizeURL urlOk (JsVal.str u) else none
            | none => none,
          mediaType := c.mediaType,
          mood := c.mood,
          milestone := c.milestone,
          colorSeed := c.colorSeed,
          tags :=
            match c.tags with
            | some ts => some (((ts.map JsVal.str).filter isStr).map sanitizeString)
            | none => none,
          age := c.age } := by
  cases c with
  | mk id year title desc mu mt mo mil ty ca ua cs tg ag =>
    unfold validateAndSanitizeCapsule
    rw [if_pos (revalidate_requiredOk _)]
    simp only [Option.some.injEq, Capsule.mk.injEq]
    refine ⟨rfl, ?_, rfl, ?_, ?_, ?_, ?_, ?_, ?_, ?_, ?_, ?_, ?_, ?_⟩
    · rfl
    · rfl
    · cases mu <;> rfl
    · cases mt with
      | none => rfl
      | some m => cases m <;> rfl
    · cases mo with
      | none => rfl
      | some m => cases m <;> rfl
    · cases mil <;> rfl
    · cases ty <;> rfl
    · rfl
    · rfl
    · cases cs <;> rfl
    · cases tg <;> rfl
    · cases ag <;> rfl

/-- Re-sanitizing the JSON of all-stripped strings filtered from a string
tags array reproduces the tags when each tag is a `sanitizeString` fixed
point. -/
theorem tags_filter_map_sanitize (ts : List String)
    (h : ∀ t ∈ ts, sanitizeString (JsVal.str t) = t) :
    ((ts.map JsVal.str).filter isStr).map sanitizeString = ts := by
  induction ts with
  | nil => rfl
  | cons t rest ih =>
    simp only [List.map_cons]
    rw [List.filter_cons_of_pos (by rfl)]
    simp only [List.map_cons]
    rw [h t (List.mem_cons_self t rest), ih (fun a ha => h a (List.mem_cons_of_mem t ha))]

/-- A re-validation-stable capsule is returned unchanged by
`validateAndSanitizeCapsule`. -/
theorem revalidate_stable_eq (now : Int) (urlOk : String → Bool) (c : Capsule)
    (hc : capsuleRevalidationStable urlOk c = true) :
    validateAndSanitizeCapsule now urlOk (capsuleToJsVal c) = some c := by
  cases c with
  | mk id year title desc mu mt mo mil ty ca ua cs tg ag =>
    rw [revalidate_eq]
    unfold capsuleRevalidationStable at hc
    simp only [Bool.and_eq_true, beq_iff_eq] at hc
    obtain ⟨⟨⟨⟨h1, h2⟩, h3⟩, h4⟩, h5⟩ := hc
    congr 1
    cases desc with
    | none =>
      cases mu with
      | none =>
        cases tg with
        | none => simp [optStrToJsVal, jsTruthy, h1, h2]
        | some ts =>
          simp only [List.all_eq_true, beq_iff_eq] at h5
          simp [optStrToJsVal, jsTruthy, h1, h2, tags_filter_map_sanitize ts h5]
      | some u =>
        simp only [Bool.and_eq_true, beq_iff_eq, decide_eq_true_eq] at h4
        cases tg with
        | none => simp [optStrToJsVal, jsTruthy, h1, h2, h4.1, h4.2]
        | some ts =>
          simp only [List.all_eq_true, beq_iff_eq] at h5
          simp [optStrToJsVal, jsTruthy, h1, h2, h4.1, h4.2,
            tags_filter_map_sanitize ts h5]
    | some s =>
      simp only [Bool.and_eq_true, beq_iff_eq, decide_eq_true_eq] at h3
      cases mu with
      | none =>
        cases tg with
        | none => simp [optStrToJsVal, jsTruthy, h1, h2, h3.1, h3.2]
        | some ts =>
          simp only [List.all_eq_true, beq_iff_eq] at h5
          simp [optStrToJsVal, jsTruthy, h1, h2, h3.1, h3.2,
            tags_filter_map_sanitize ts h5]
      | some u =>
        simp only [Bool.and_eq_true, beq_iff_eq, decide_eq_true_eq] at h4
        cases tg with
        | none => simp [optStrToJsVal, jsTruthy, h1, h2, h3.1, h3.2, h4.1, h4.2]
        | some ts =>
          simp only [List.all_eq_true, beq_iff_eq] at h5
          simp [optStrToJsVal, jsTruthy, h1, h2, h3.1, h3.2, h4.1, h4.2,
            tags_filter_map_sanitize ts h5]

/-- Lists on which `f` is pointwise `some` are fixed by `filterMap f`. -/
theorem filterMap_eq_self_of {α : Type} (f : α → Option α) (l : List α)
    (h : ∀ a ∈ l, f a = some a) : l.filterMap f = l := by
  induction l with
  | nil => rfl
  | cons a r ih =>
    rw [List.filterMap_cons, h a (List.mem_cons_self a r)]
    rw [ih (fun b hb => h b (List.mem_cons_of_mem a hb))]

/-- C6 (amended): re-validating an in-memory `ShareData` whose capsules
form a nonempty list of typed capsules always succeeds with zero warnings;
the capsule list itself is returned unchanged provided every capsule is
re-validation stable — i.e. its sanitized string fields are fixed points of
`sanitizeString` and its description, if present, is non-empty. (A truthy
description that sanitizes to the empty string, or a string truncated at
the 10,000-character cap leaving trailing whitespace, changes on the
second pass.) -/
theorem C6_revalidation (now : Int) (dateOk urlOk : String → Bool)
    (cs : List Capsule) (md : Option ShareMetadata) (hne : cs ≠ []) :
    (validateImportedJSON now dateOk urlOk
        (shareDataToJsVal { capsules := cs, metadata := md })).valid = true
    ∧ (validateImportedJSON now dateOk urlOk
        (shareDataToJsVal { capsules := cs, metadata := md })).warnings = none
    ∧ ((∀ c ∈ cs, capsuleRevalidationStable urlOk c = true) →
        (validateImportedJSON now dateOk urlOk
          (shareDataToJsVal { capsules := cs, metadata := md })).capsules = some cs) := by
  have hp : isPrimitiveJs (shareDataToJsVal { capsules := cs, metadata := md }) = false := rfl
  have hcf : jsField (coerceLegacy (shareDataToJsVal { capsules := cs, metadata := md }))
      "capsules" = some (JsVal.arr (cs.map capsuleToJsVal)) := rfl
  have hxs : cs.map capsuleToJsVal ≠ [] := by
    cases cs with
    | nil => exact absurd rfl hne
    | cons a l => simp
  have hsome : ∀ c : Capsule,
      (validateAndSanitizeCapsule now urlOk (capsuleToJsVal c)).isSome = true := by
    intro c
    rw [validateAndSanitizeCapsule_isSome]
    exact revalidate_requiredOk c
  have hv : (cs.map capsuleToJsVal).filterMap (validateAndSanitizeCapsule now urlOk)
      ≠ [] := by
    intro hnil
    cases cs with
    | nil => exact hne rfl
    | cons c0 r =>
      have hc0 := List.filterMap_eq_nil_iff.mp hnil (capsuleToJsVal c0) (by simp)
      have h2 := hsome c0
      rw [hc0] at h2
      exact absurd h2 (by simp)
  obtain ⟨hval, hcaps, hwarn⟩ :=
    validateImportedJSON_success now dateOk urlOk _ _ hp hcf hxs hv
  refine ⟨hval, ?_, ?_⟩
  · rw [hwarn]
    have hcount : ((cs.map capsuleToJsVal).countP
        fun c => (validateAndSanitizeCapsule now urlOk c).isNone) = 0 := by
      rw [List.countP_map]
      refine List.countP_eq_zero.mpr fun a _ => ?_
      simp only [Function.comp]
      have h2 := hsome a
      cases hfc : validateAndSanitizeCapsule now urlOk (capsuleToJsVal a) with
      | none =>
        rw [hfc] at h2
        exact absurd h2 (by simp)
      | some c2 => simp [hfc]
    rw [hcount]
    simp
  · intro hstable
    rw [hcaps, List.filterMap_map]
    congr 1
    exact filterMap_eq_self_of _ cs
      (fun a ha => revalidate_stable_eq now urlOk a (hstable a ha))

/-- C6 witness: a plain capsule with no optional data re-validates to
itself with zero warnings. -/
theorem C6_revalidation_witness :
    (validateImportedJSON 0 (fun _ => false) (fun _ => false)
        (shareDataToJsVal { capsules := [cap2020], metadata := none })).valid = true
    ∧ (validateImportedJSON 0 (fun _ => false) (fun _ => false)
        (shareDataToJsVal { capsules := [cap2020], metadata := none })).warnings = none
    ∧ (validateImportedJSON 0 (fun _ => false) (fun _ => false)
        (shareDataToJsVal { capsules := [cap2020], metadata := none })).capsules
        = some [cap2020] := by
  obtain ⟨h1, h2, h3⟩ :=
    C6_revalidation 0 (fun _ => false) (fun _ => false) [cap2020] none (by simp)
  exact ⟨h1, h2, h3 (by decide)⟩

/-- C6 counterexample: the single-space description is truthy on first
validation and sanitized to `''`, which is falsy on the second — so
re-validating the first run's own output changes the capsule list, even
though both runs succeed. -/
theorem C6_revalidation_counterexample :
    (validateImportedJSON 0 (fun _ => false) (fun _ => false) c6Json).valid = true
    ∧ (validateImportedJSON 0 (fun _ => false) (fun _ => false) c6Json).capsules
        = some [c6Capsule]
    ∧ (validateImportedJSON 0 (fun _ => false) (fun _ => false)
        (shareDataToJsVal { capsules := [c6Capsule], metadata := none })).valid = true
    ∧ (validateImportedJSON 0 (fun _ => false) (fun _ => false)
        (shareDataToJsVal { capsules := [c6Capsule], metadata := none })).capsules
        ≠ some [c6Capsule] := by
  refine ⟨?_, ?_, ?_, ?_⟩ <;> decide
